import Mathlib

/-!
Verification of the yomihon OCR inference engine (ocr_inference.cpp).

The development shallowly embeds the hardware-adaptive inference engine:
the greedy decode loop `OcrInference::InferTokens`, the argmax selection
`OcrInference::FindMaxLogitToken`, the backend selection logic
(`TryCompileWithGpu` / `TryCompileWithCpu` / `Initialize`), the thread
count helper `GetOptimalThreadCount`, and the lifecycle methods
(`Initialize` / `Close`) together with the process-wide shared LiteRT
environment handle.

Float values are modelled as rationals, machine ints as `Int`/`Nat`
(all quantities involved stay far from any overflow boundary), and the
fallible LiteRT backend calls (buffer writes, model runs, buffer reads,
compilations) are modelled as boolean outcome oracles supplied as
parameters, so that failure-injection scenarios from the specification
can be expressed directly.
-/

set_option autoImplicit false

namespace Mihon

/-! ### Model constants (ocr_inference.h, lines 43-49) -/

def IMAGE_SIZE : Nat := 224

def MAX_SEQUENCE_LENGTH : Nat := 300

def VOCAB_SIZE : Nat := 6144

def HIDDEN_SIZE : Nat := 768

def START_TOKEN_ID : Int := 2

def END_TOKEN_ID : Int := 3

def PAD_TOKEN_ID : Int := 0

/-! ### FindMaxLogitToken (ocr_inference.cpp, lines 567-583)

The C++ scans the logits row of the most recently appended token
(`last_token_pos = seq_len - 1`), initialising the running maximum from
vocabulary index 0 and replacing it only on a strictly larger logit
(`logit > max_logit`), i.e. first-index-wins tie-breaking. -/

def argmaxStep (row : Nat → ℚ) (acc : ℚ × Int) (vocab_idx : Nat) : ℚ × Int :=
  if row vocab_idx > acc.1 then (row vocab_idx, (vocab_idx : Int)) else acc

def logitsRow (logits : Nat → ℚ) (seq_len : Nat) : Nat → ℚ :=
  fun vocab_idx => logits ((seq_len - 1) * VOCAB_SIZE + vocab_idx)

def argmaxFrom (row : Nat → ℚ) : (ℚ × Int) → List Nat → Int
  | acc, [] => acc.2
  | acc, i :: rest => argmaxFrom row (argmaxStep row acc i) rest

def findMaxLogitToken (logits : Nat → ℚ) (seq_len : Nat) : Int :=
  argmaxFrom (logitsRow logits seq_len)
    (logitsRow logits seq_len 0, 0)
    (List.range' 1 (VOCAB_SIZE - 1))

theorem argmaxFrom_bound (row : Nat → ℚ) (B : Int) :
    ∀ (l : List Nat) (acc : ℚ × Int), (∀ i ∈ l, (i : Int) < B) →
      0 ≤ acc.2 → acc.2 < B →
      0 ≤ argmaxFrom row acc l ∧ argmaxFrom row acc l < B := by
  intro l
  induction l with
  | nil => intro acc _ h0 hB; exact ⟨h0, hB⟩
  | cons i t ih =>
    intro acc hmem h0 hB
    rw [argmaxFrom]
    apply ih
    · intro j hj; exact hmem j (List.mem_cons_of_mem i hj)
    · unfold argmaxStep
      split
      · exact Int.ofNat_nonneg i
      · exact h0
    · unfold argmaxStep
      split
      · exact hmem i (List.mem_cons_self i t)
      · exact hB

theorem range_members_lt_vocab :
    ∀ i ∈ List.range' 1 (VOCAB_SIZE - 1), (i : Int) < (VOCAB_SIZE : Int) := by
  intro i hi
  have h := (List.mem_range'_1.mp hi).2
  have hle : 1 + (VOCAB_SIZE - 1) ≤ VOCAB_SIZE := by decide
  exact_mod_cast Nat.lt_of_lt_of_le h hle

theorem findMaxLogitToken_nonneg (logits : Nat → ℚ) (seq_len : Nat) :
    0 ≤ findMaxLogitToken logits seq_len := by
  unfold findMaxLogitToken
  refine (argmaxFrom_bound (logitsRow logits seq_len) (VOCAB_SIZE : Int) _ _
    range_members_lt_vocab le_rfl ?_).1
  show (0 : Int) < (VOCAB_SIZE : Int)
  decide

theorem findMaxLogitToken_lt_vocab (logits : Nat → ℚ) (seq_len : Nat) :
    findMaxLogitToken logits seq_len < (VOCAB_SIZE : Int) := by
  unfold findMaxLogitToken
  refine (argmaxFrom_bound (logitsRow logits seq_len) (VOCAB_SIZE : Int) _ _
    range_members_lt_vocab le_rfl ?_).2
  show (0 : Int) < (VOCAB_SIZE : Int)
  decide

theorem argmaxFrom_flat (row : Nat → ℚ) (a : ℚ) (t : Int)
    (hflat : ∀ i, ¬ row i > a) :
    ∀ l : List Nat, argmaxFrom row (a, t) l = t := by
  intro l
  induction l with
  | nil => rfl
  | cons i s ih =>
    rw [argmaxFrom]
    simp only [argmaxStep, hflat, if_false]
    exact ih

theorem findMax_const (c : ℚ) (seq_len : Nat) :
    findMaxLogitToken (fun _ => c) seq_len = 0 := by
  unfold findMaxLogitToken
  exact argmaxFrom_flat (logitsRow (fun _ => c) seq_len) c 0 (fun i => lt_irrefl c) _

/-! ### Decode loop state (ocr_inference.cpp, lines 585-719)

The per-call mutable state of `InferTokens`: the attention mask
`attention_mask_` (`MAX_SEQUENCE_LENGTH` floats), the embedding table
`embeddings_input_` (`MAX_SEQUENCE_LENGTH * HIDDEN_SIZE` floats, flat
indexing), and the output token sequence `out_tokens[0..token_count)`.
Both float arrays are modelled as total functions from flat indices. -/

structure DecState where
  mask : Nat → ℚ
  emb : Nat → ℚ
  tokens : List Int

/-- UpdateEmbedding (ocr_inference.cpp, lines 557-565): copy row `token_id`
of the embedding table `embeddings_data_` into row `index` of
`embeddings_input_`. -/
def updateEmbedding (table : Int → ℚ) (emb : Nat → ℚ) (token_id : Int) (index : Nat) :
    Nat → ℚ :=
  fun i =>
    if index * HIDDEN_SIZE ≤ i ∧ i < index * HIDDEN_SIZE + HIDDEN_SIZE then
      table (token_id * (HIDDEN_SIZE : Int) + ((i : Int) - (index * HIDDEN_SIZE : Nat)))
    else emb i

/-- One successful append in the decode loop (ocr_inference.cpp, lines
697-699): store the token at position `token_count`, copy its embedding
into row `token_count`, set mask bit `token_count`. The `token_count`
increment is reflected by the longer token list. -/
def appendToken (table : Int → ℚ) (s : DecState) (t : Int) : DecState :=
  { mask := fun i => if i = s.tokens.length then 1 else s.mask i
    emb := updateEmbedding table s.emb t s.tokens.length
    tokens := s.tokens ++ [t] }

/-- Reason the decode loop stopped. `bufferError` covers a failed mask
write, embedding write, decoder run or logits read; `invalidToken` is the
`next_token < 0` branch; `endToken` the END-token branch; `limit` the
`token_count >= max_tokens || token_count >= MAX_SEQUENCE_LENGTH` break;
`loopEnd` exhaustion of the `step < MAX_SEQUENCE_LENGTH - 1` loop bound. -/
inductive StopReason where
  | bufferError
  | invalidToken
  | endToken
  | limit
  | loopEnd
deriving DecidableEq

/-- Outcome oracles for the LiteRT backend calls made by `InferTokens`.
Buffer writes, model runs and buffer reads are fallible; their success is
injected per call (encoder stage) or per decode step (decoder stage).
`encRun` is the compiled encoder as a pure function from the image tensor
to the hidden-state buffer contents; `decLogits` is the compiled decoder
as a pure function of its three inputs (hidden states, attention mask,
token embeddings) to the logits buffer contents. -/
structure InferEnv where
  encWriteOk : Bool
  encRunOk : Bool
  encReadOk : Bool
  hiddenWriteOk : Bool
  decWriteMaskOk : Nat → Bool
  decWriteEmbOk : Nat → Bool
  decRunOk : Nat → Bool
  decReadOk : Nat → Bool
  encRun : (Nat → ℚ) → Nat → ℚ
  decLogits : (Nat → ℚ) → (Nat → ℚ) → (Nat → ℚ) → Nat → ℚ

/-- All four decoder-step backend operations of one loop iteration succeed. -/
def stepOk (env : InferEnv) (step : Nat) : Prop :=
  env.decWriteMaskOk step = true ∧ env.decWriteEmbOk step = true ∧
    env.decRunOk step = true ∧ env.decReadOk step = true

instance (env : InferEnv) (step : Nat) : Decidable (stepOk env step) := by
  unfold stepOk
  infer_instance

/-- The decoder argmax never selects the END token id, whatever the
decoder inputs — the hypothesis of the never-emits-END scenarios. -/
def noEndSelected (env : InferEnv) (hidden : Nat → ℚ) : Prop :=
  ∀ (mask emb : Nat → ℚ) (seq_len : Nat),
    findMaxLogitToken (env.decLogits hidden mask emb) seq_len ≠ END_TOKEN_ID

/-- Decode loop of `InferTokens` (ocr_inference.cpp, lines 651-705).
`step` is the C++ loop counter; the remaining iteration budget
`fuel` starts at `MAX_SEQUENCE_LENGTH - 1` so that the loop body runs for
`step = 0, 1, ..., MAX_SEQUENCE_LENGTH - 2` exactly as
`for (int step = 0; step < MAX_SEQUENCE_LENGTH - 1; ++step)` does.
Each iteration: write mask, write embeddings, run decoder, read logits
(each fallible, `break` on failure), select `next_token` by argmax at row
`token_count - 1`, `break` on a negative or END selection, otherwise
append and `break` when `token_count` reaches `max_tokens` or
`MAX_SEQUENCE_LENGTH`. -/
def decodeLoop (env : InferEnv) (table : Int → ℚ) (hidden : Nat → ℚ)
    (max_tokens : Int) : Nat → Nat → DecState → DecState × StopReason
  | _, 0, s => (s, StopReason.loopEnd)
  | step, fuel + 1, s =>
    if env.decWriteMaskOk step = false then (s, StopReason.bufferError)
    else if env.decWriteEmbOk step = false then (s, StopReason.bufferError)
    else if env.decRunOk step = false then (s, StopReason.bufferError)
    else if env.decReadOk step = false then (s, StopReason.bufferError)
    else if findMaxLogitToken (env.decLogits hidden s.mask s.emb) s.tokens.length < 0 then
      (s, StopReason.invalidToken)
    else if findMaxLogitToken (env.decLogits hidden s.mask s.emb) s.tokens.length
        = END_TOKEN_ID then
      (s, StopReason.endToken)
    else if max_tokens ≤ (s.tokens.length : Int) + 1 ∨
        MAX_SEQUENCE_LENGTH ≤ s.tokens.length + 1 then
      (appendToken table s
        (findMaxLogitToken (env.decLogits hidden s.mask s.emb) s.tokens.length),
       StopReason.limit)
    else
      decodeLoop env table hidden max_tokens (step + 1) fuel
        (appendToken table s
          (findMaxLogitToken (env.decLogits hidden s.mask s.emb) s.tokens.length))

/-- Engine working memory surviving across calls: `embeddings_input_`
and `attention_mask_` (ocr_inference.h, lines 61-62). -/
structure EngineSt where
  mask : Nat → ℚ
  emb : Nat → ℚ

/-- Decoder state right after the reset at the start of a call
(ocr_inference.cpp, lines 632-639): both arrays zero-filled, then
`out_tokens[0] = START_TOKEN_ID`, `UpdateEmbedding(START_TOKEN_ID, 0)`,
`attention_mask_[0] = 1.0f`, `token_count = 1`. -/
def resetSt (table : Int → ℚ) : EngineSt :=
  { mask := fun i => if i = 0 then 1 else 0
    emb := updateEmbedding table (fun _ => 0) START_TOKEN_ID 0 }

def initDecState (table : Int → ℚ) : DecState :=
  { mask := (resetSt table).mask
    emb := (resetSt table).emb
    tokens := [START_TOKEN_ID] }

/-- InferTokens (ocr_inference.cpp, lines 585-719). Returns the token
sequence (whose length is the C++ return value `token_count`) and the
engine working memory left behind. A not-initialized engine, a failed
encoder input write, encoder run, encoder output read, or decoder
hidden-state write each return zero tokens; otherwise the decode loop
runs from the reset state. -/
def inferTokens (env : InferEnv) (initialized : Bool) (table : Int → ℚ)
    (st : EngineSt) (image : Nat → ℚ) (max_tokens : Int) : List Int × EngineSt :=
  if initialized = false then ([], st)
  else if env.encWriteOk = false then ([], st)
  else if env.encRunOk = false then ([], st)
  else if env.encReadOk = false then ([], st)
  else if env.hiddenWriteOk = false then ([], resetSt table)
  else
    ((decodeLoop env table (env.encRun image) max_tokens 0 (MAX_SEQUENCE_LENGTH - 1)
        (initDecState table)).1.tokens,
     { mask := (decodeLoop env table (env.encRun image) max_tokens 0
          (MAX_SEQUENCE_LENGTH - 1) (initDecState table)).1.mask
       emb := (decodeLoop env table (env.encRun image) max_tokens 0
          (MAX_SEQUENCE_LENGTH - 1) (initDecState table)).1.emb })

theorem appendToken_length (table : Int → ℚ) (s : DecState) (t : Int) :
    (appendToken table s t).tokens.length = s.tokens.length + 1 := by
  simp [appendToken]

theorem initDecState_length (table : Int → ℚ) :
    (initDecState table).tokens.length = 1 := rfl

/-! ### Step-shape lemmas for the decode loop -/

theorem decodeLoop_succ_fail (env : InferEnv) (table : Int → ℚ) (hidden : Nat → ℚ)
    (max_tokens : Int) (step fuel : Nat) (s : DecState) (hfail : ¬ stepOk env step) :
    decodeLoop env table hidden max_tokens step (fuel + 1) s = (s, StopReason.bufferError) := by
  simp only [decodeLoop]
  by_cases hm : env.decWriteMaskOk step = false
  · rw [if_pos hm]
  · rw [if_neg hm]
    by_cases he : env.decWriteEmbOk step = false
    · rw [if_pos he]
    · rw [if_neg he]
      by_cases hr : env.decRunOk step = false
      · rw [if_pos hr]
      · rw [if_neg hr]
        by_cases hd : env.decReadOk step = false
        · rw [if_pos hd]
        · exact absurd ⟨by simpa using hm, by simpa using he,
            by simpa using hr, by simpa using hd⟩ hfail

theorem decodeLoop_succ_invalid (env : InferEnv) (table : Int → ℚ) (hidden : Nat → ℚ)
    (max_tokens : Int) (step fuel : Nat) (s : DecState) (hok : stepOk env step)
    (hneg : findMaxLogitToken (env.decLogits hidden s.mask s.emb) s.tokens.length < 0) :
    decodeLoop env table hidden max_tokens step (fuel + 1) s = (s, StopReason.invalidToken) := by
  obtain ⟨hm, he, hr, hd⟩ := hok
  simp only [decodeLoop]
  rw [if_neg (by simp [hm]), if_neg (by simp [he]), if_neg (by simp [hr]),
    if_neg (by simp [hd]), if_pos hneg]

theorem decodeLoop_succ_end (env : InferEnv) (table : Int → ℚ) (hidden : Nat → ℚ)
    (max_tokens : Int) (step fuel : Nat) (s : DecState) (hok : stepOk env step)
    (hpos : ¬ findMaxLogitToken (env.decLogits hidden s.mask s.emb) s.tokens.length < 0)
    (hEnd : findMaxLogitToken (env.decLogits hidden s.mask s.emb) s.tokens.length
      = END_TOKEN_ID) :
    decodeLoop env table hidden max_tokens step (fuel + 1) s = (s, StopReason.endToken) := by
  obtain ⟨hm, he, hr, hd⟩ := hok
  simp only [decodeLoop]
  rw [if_neg (by simp [hm]), if_neg (by simp [he]), if_neg (by simp [hr]),
    if_neg (by simp [hd]), if_neg hpos, if_pos hEnd]

theorem decodeLoop_succ_limit (env : InferEnv) (table : Int → ℚ) (hidden : Nat → ℚ)
    (max_tokens : Int) (step fuel : Nat) (s : DecState) (hok : stepOk env step)
    (hpos : ¬ findMaxLogitToken (env.decLogits hidden s.mask s.emb) s.tokens.length < 0)
    (hEnd : ¬ findMaxLogitToken (env.decLogits hidden s.mask s.emb) s.tokens.length
      = END_TOKEN_ID)
    (hlim : max_tokens ≤ (s.tokens.length : Int) + 1 ∨
      MAX_SEQUENCE_LENGTH ≤ s.tokens.length + 1) :
    decodeLoop env table hidden max_tokens step (fuel + 1) s =
      (appendToken table s
        (findMaxLogitToken (env.decLogits hidden s.mask s.emb) s.tokens.length),
       StopReason.limit) := by
  obtain ⟨hm, he, hr, hd⟩ := hok
  simp only [decodeLoop]
  rw [if_neg (by simp [hm]), if_neg (by simp [he]), if_neg (by simp [hr]),
    if_neg (by simp [hd]), if_neg hpos, if_neg hEnd, if_pos hlim]

theorem decodeLoop_succ_ok (env : InferEnv) (table : Int → ℚ) (hidden : Nat → ℚ)
    (max_tokens : Int) (step fuel : Nat) (s : DecState) (hok : stepOk env step)
    (hpos : ¬ findMaxLogitToken (env.decLogits hidden s.mask s.emb) s.tokens.length < 0)
    (hEnd : ¬ findMaxLogitToken (env.decLogits hidden s.mask s.emb) s.tokens.length
      = END_TOKEN_ID)
    (hlim : ¬ (max_tokens ≤ (s.tokens.length : Int) + 1 ∨
      MAX_SEQUENCE_LENGTH ≤ s.tokens.length + 1)) :
    decodeLoop env table hidden max_tokens step (fuel + 1) s =
      decodeLoop env table hidden max_tokens (step + 1) fuel
        (appendToken table s
          (findMaxLogitToken (env.decLogits hidden s.mask s.emb) s.tokens.length)) := by
  obtain ⟨hm, he, hr, hd⟩ := hok
  simp only [decodeLoop]
  rw [if_neg (by simp [hm]), if_neg (by simp [he]), if_neg (by simp [hr]),
    if_neg (by simp [hd]), if_neg hpos, if_neg hEnd, if_neg hlim]

/-! ### Length lemmas for the decode loop -/

/-- When every backend decode-step operation succeeds and the argmax never
selects END, the loop appends exactly one token per iteration until its
budget or the caller limit is exhausted. -/
theorem decodeLoop_length_all_ok (env : InferEnv) (table : Int → ℚ) (hidden : Nat → ℚ)
    (max_tokens : Int) (hops : ∀ i, stepOk env i) (hend : noEndSelected env hidden) :
    ∀ (fuel step : Nat) (s : DecState),
      (s.tokens.length : Int) + fuel ≤ max_tokens →
      s.tokens.length + fuel ≤ MAX_SEQUENCE_LENGTH →
      (decodeLoop env table hidden max_tokens step fuel s).1.tokens.length =
        s.tokens.length + fuel := by
  intro fuel
  induction fuel with
  | zero => intro step s _ _; simp [decodeLoop]
  | succ f ih =>
    intro step s hmax hseq
    have hpos : ¬ findMaxLogitToken (env.decLogits hidden s.mask s.emb) s.tokens.length < 0 :=
      not_lt.mpr (findMaxLogitToken_nonneg _ _)
    have hEnd := hend s.mask s.emb s.tokens.length
    by_cases hlim : max_tokens ≤ (s.tokens.length : Int) + 1 ∨
        MAX_SEQUENCE_LENGTH ≤ s.tokens.length + 1
    · have hf0 : f = 0 := by
        rcases hlim with h | h
        · omega
        · omega
      rw [decodeLoop_succ_limit env table hidden max_tokens step f s (hops step) hpos hEnd hlim]
      simp [appendToken_length, hf0]
    · rw [decodeLoop_succ_ok env table hidden max_tokens step f s (hops step) hpos hEnd hlim]
      rw [ih (step + 1) _ (by simp [appendToken_length]; omega)
        (by simp [appendToken_length]; omega)]
      simp [appendToken_length]
      omega

/-- When the first `n` decode steps succeed without END, and some backend
operation of step `n` fails, the loop returns after appending exactly `n`
tokens (also covers fuel exhaustion at exactly `n` iterations). -/
theorem decodeLoop_length_fail_at (env : InferEnv) (table : Int → ℚ) (hidden : Nat → ℚ)
    (max_tokens : Int) (hend : noEndSelected env hidden) :
    ∀ (n fuel step : Nat) (s : DecState),
      (∀ i, i < n → stepOk env (step + i)) →
      ¬ stepOk env (step + n) →
      n ≤ fuel →
      (s.tokens.length : Int) + n < max_tokens →
      s.tokens.length + n < MAX_SEQUENCE_LENGTH →
      (decodeLoop env table hidden max_tokens step fuel s).1.tokens.length =
        s.tokens.length + n := by
  intro n
  induction n with
  | zero =>
    intro fuel step s _ hfail _ _ _
    cases fuel with
    | zero => simp [decodeLoop]
    | succ f =>
      rw [decodeLoop_succ_fail env table hidden max_tokens step f s (by simpa using hfail)]
      simp
  | succ m ih =>
    intro fuel step s hoks hfail hfuel hmax hseq
    cases fuel with
    | zero => omega
    | succ f =>
      have hok0 : stepOk env step := by simpa using hoks 0 (Nat.succ_pos m)
      have hpos : ¬ findMaxLogitToken (env.decLogits hidden s.mask s.emb) s.tokens.length < 0 :=
        not_lt.mpr (findMaxLogitToken_nonneg _ _)
      have hEnd := hend s.mask s.emb s.tokens.length
      have hlim : ¬ (max_tokens ≤ (s.tokens.length : Int) + 1 ∨
          MAX_SEQUENCE_LENGTH ≤ s.tokens.length + 1) := by
        push_neg
        constructor
        · push_cast at hmax ⊢; omega
        · omega
      rw [decodeLoop_succ_ok env table hidden max_tokens step f s hok0 hpos hEnd hlim]
      rw [ih f (step + 1) _ (fun i hi => by
          have := hoks (i + 1) (by omega)
          simpa [Nat.add_assoc, Nat.add_comm 1 i] using this)
        (by simpa [Nat.add_assoc, Nat.add_comm 1 m] using hfail)
        (by omega)
        (by simp [appendToken_length]; push_cast at hmax ⊢; omega)
        (by simp [appendToken_length]; omega)]
      simp [appendToken_length]
      omega

/-- First-iteration limit break: when the caller limit is already reached
by the very first append, the loop returns after exactly one append. -/
theorem decodeLoop_length_first_limit (env : InferEnv) (table : Int → ℚ) (hidden : Nat → ℚ)
    (max_tokens : Int) (step fuel : Nat) (s : DecState) (hok : stepOk env step)
    (hend : noEndSelected env hidden)
    (hlim : max_tokens ≤ (s.tokens.length : Int) + 1) :
    (decodeLoop env table hidden max_tokens step (fuel + 1) s).1.tokens.length =
      s.tokens.length + 1 := by
  have hpos : ¬ findMaxLogitToken (env.decLogits hidden s.mask s.emb) s.tokens.length < 0 :=
    not_lt.mpr (findMaxLogitToken_nonneg _ _)
  rw [decodeLoop_succ_limit env table hidden max_tokens step fuel s hok hpos
    (hend s.mask s.emb s.tokens.length) (Or.inl hlim)]
  simp [appendToken_length]

/-- Whatever happens inside the loop, the returned token count never
exceeds the caller limit (when it is at least the current count + 1) nor
`MAX_SEQUENCE_LENGTH`. -/
theorem decodeLoop_length_le (env : InferEnv) (table : Int → ℚ) (hidden : Nat → ℚ)
    (max_tokens : Int) :
    ∀ (fuel step : Nat) (s : DecState),
      (s.tokens.length : Int) < max_tokens →
      s.tokens.length < MAX_SEQUENCE_LENGTH →
      ((decodeLoop env table hidden max_tokens step fuel s).1.tokens.length : Int)
          ≤ max_tokens ∧
        (decodeLoop env table hidden max_tokens step fuel s).1.tokens.length
          ≤ MAX_SEQUENCE_LENGTH := by
  intro fuel
  induction fuel with
  | zero =>
    intro step s hmax hseq
    simp only [decodeLoop]
    exact ⟨le_of_lt hmax, le_of_lt hseq⟩
  | succ f ih =>
    intro step s hmax hseq
    by_cases hok : stepOk env step
    · by_cases hneg : findMaxLogitToken (env.decLogits hidden s.mask s.emb) s.tokens.length < 0
      · rw [decodeLoop_succ_invalid env table hidden max_tokens step f s hok hneg]
        exact ⟨le_of_lt hmax, le_of_lt hseq⟩
      · by_cases hEnd : findMaxLogitToken (env.decLogits hidden s.mask s.emb) s.tokens.length
            = END_TOKEN_ID
        · rw [decodeLoop_succ_end env table hidden max_tokens step f s hok hneg hEnd]
          exact ⟨le_of_lt hmax, le_of_lt hseq⟩
        · by_cases hlim : max_tokens ≤ (s.tokens.length : Int) + 1 ∨
              MAX_SEQUENCE_LENGTH ≤ s.tokens.length + 1
          · rw [decodeLoop_succ_limit env table hidden max_tokens step f s hok hneg hEnd hlim]
            constructor
            · simp [appendToken_length]; omega
            · simp [appendToken_length]; omega
          · rw [decodeLoop_succ_ok env table hidden max_tokens step f s hok hneg hEnd hlim]
            push_neg at hlim
            exact ih (step + 1) _
              (by simp [appendToken_length]; omega)
              (by simp [appendToken_length]; omega)
    · rw [decodeLoop_succ_fail env table hidden max_tokens step f s hok]
      exact ⟨le_of_lt hmax, le_of_lt hseq⟩

/-- The `next_token < 0` stop branch of the loop is unreachable: no run of
the loop ever reports `invalidToken`. -/
theorem decodeLoop_never_invalid (env : InferEnv) (table : Int → ℚ) (hidden : Nat → ℚ)
    (max_tokens : Int) :
    ∀ (fuel step : Nat) (s : DecState),
      (decodeLoop env table hidden max_tokens step fuel s).2 ≠ StopReason.invalidToken := by
  intro fuel
  induction fuel with
  | zero => intro step s; simp [decodeLoop]
  | succ f ih =>
    intro step s
    by_cases hok : stepOk env step
    · by_cases hneg : findMaxLogitToken (env.decLogits hidden s.mask s.emb) s.tokens.length < 0
      · exact absurd hneg (not_lt.mpr (findMaxLogitToken_nonneg _ _))
      · by_cases hEnd : findMaxLogitToken (env.decLogits hidden s.mask s.emb) s.tokens.length
            = END_TOKEN_ID
        · rw [decodeLoop_succ_end env table hidden max_tokens step f s hok hneg hEnd]
          simp
        · by_cases hlim : max_tokens ≤ (s.tokens.length : Int) + 1 ∨
              MAX_SEQUENCE_LENGTH ≤ s.tokens.length + 1
          · rw [decodeLoop_succ_limit env table hidden max_tokens step f s hok hneg hEnd hlim]
            simp
          · rw [decodeLoop_succ_ok env table hidden max_tokens step f s hok hneg hEnd hlim]
            exact ih (step + 1) _
    · rw [decodeLoop_succ_fail env table hidden max_tokens step f s hok]
      simp

/-! ### InferTokens main-path unfolding and concrete scenarios -/

theorem inferTokens_run (env : InferEnv) (table : Int → ℚ) (st : EngineSt)
    (image : Nat → ℚ) (max_tokens : Int)
    (hW : env.encWriteOk = true) (hR : env.encRunOk = true)
    (hRd : env.encReadOk = true) (hH : env.hiddenWriteOk = true) :
    (inferTokens env true table st image max_tokens).1 =
      (decodeLoop env table (env.encRun image) max_tokens 0 (MAX_SEQUENCE_LENGTH - 1)
        (initDecState table)).1.tokens := by
  unfold inferTokens
  rw [if_neg (by simp), if_neg (by simp [hW]), if_neg (by simp [hR]),
    if_neg (by simp [hRd]), if_neg (by simp [hH])]

/-- A decoder whose logits buffer is identically zero selects token 0 at
every step, so it never selects END. -/
theorem constLogits_noEnd (env : InferEnv) (hidden : Nat → ℚ)
    (hconst : ∀ mask emb : Nat → ℚ, env.decLogits hidden mask emb = fun _ => (0 : ℚ)) :
    noEndSelected env hidden := by
  intro mask emb seq_len
  rw [hconst mask emb, findMax_const]
  decide

def zeroTable : Int → ℚ := fun _ => 0

def zeroImage : Nat → ℚ := fun _ => 0

def zeroEngineSt : EngineSt :=
  { mask := fun _ => 0
    emb := fun _ => 0 }

/-- Scenario environment: every backend operation succeeds and the decoder
always produces an all-zero logits buffer (argmax = token 0, never END). -/
def envAllOk : InferEnv :=
  { encWriteOk := true
    encRunOk := true
    encReadOk := true
    hiddenWriteOk := true
    decWriteMaskOk := fun _ => true
    decWriteEmbOk := fun _ => true
    decRunOk := fun _ => true
    decReadOk := fun _ => true
    encRun := fun _ => fun _ => 0
    decLogits := fun _ _ _ => fun _ => 0 }

/-- Scenario environment: like `envAllOk` but the decoder run call fails
from decode step 5 onwards. -/
def envFailAt5 : InferEnv :=
  { envAllOk with decRunOk := fun step => decide (step < 5) }

theorem envAllOk_noEnd : noEndSelected envAllOk (envAllOk.encRun zeroImage) :=
  constLogits_noEnd envAllOk _ (fun _ _ => rfl)

theorem envFailAt5_noEnd : noEndSelected envFailAt5 (envFailAt5.encRun zeroImage) :=
  constLogits_noEnd envFailAt5 _ (fun _ _ => rfl)

/-! ### Claims about the decode loop -/

/-- C1. For an initialized engine called with maxTokens = 300, if the
argmax never selects END and no buffer write/run/read step fails,
`InferTokens` returns the initial START token plus one generated token per
completed loop iteration. The loop body runs for steps
0 .. MAX_SEQUENCE_LENGTH - 2, i.e. MAX_SEQUENCE_LENGTH - 1 = 299 times,
so the returned count is 1 + 299 = 300 (not 299 as the claim stated). -/
theorem inferTokens_never_end_max300_length (env : InferEnv) (table : Int → ℚ)
    (st : EngineSt) (image : Nat → ℚ)
    (hW : env.encWriteOk = true) (hR : env.encRunOk = true)
    (hRd : env.encReadOk = true) (hH : env.hiddenWriteOk = true)
    (hops : ∀ i, stepOk env i) (hend : noEndSelected env (env.encRun image)) :
    (inferTokens env true table st image 300).1.length = 300 := by
  rw [inferTokens_run env table st image 300 hW hR hRd hH]
  rw [decodeLoop_length_all_ok env table (env.encRun image) 300 hops hend
    (MAX_SEQUENCE_LENGTH - 1) 0 (initDecState table)
    (by rw [initDecState_length]; decide)
    (by rw [initDecState_length]; decide)]
  rw [initDecState_length]
  decide

theorem inferTokens_never_end_max300_length_witness :
    (inferTokens envAllOk true zeroTable zeroEngineSt zeroImage 300).1.length = 300 :=
  inferTokens_never_end_max300_length envAllOk zeroTable zeroEngineSt zeroImage
    rfl rfl rfl rfl (fun _ => ⟨rfl, rfl, rfl, rfl⟩) envAllOk_noEnd

/-- C1 counterexample. In the concrete never-END, never-failing scenario
with maxTokens = 300, the returned token count is not 299 (it is 300): the
claimed count of exactly 299 tokens is wrong on the code. -/
theorem inferTokens_never_end_max300_not_299 :
    ¬ (inferTokens envAllOk true zeroTable zeroEngineSt zeroImage 300).1.length = 299 := by
  have h : (inferTokens envAllOk true zeroTable zeroEngineSt zeroImage 300).1.length = 300 := by
    rw [inferTokens_run envAllOk zeroTable zeroEngineSt zeroImage 300 rfl rfl rfl rfl]
    rw [decodeLoop_length_all_ok envAllOk zeroTable (envAllOk.encRun zeroImage) 300
      (fun _ => ⟨rfl, rfl, rfl, rfl⟩) envAllOk_noEnd
      (MAX_SEQUENCE_LENGTH - 1) 0 (initDecState zeroTable)
      (by rw [initDecState_length]; decide)
      (by rw [initDecState_length]; decide)]
    rw [initDecState_length]
    decide
  omega

/-- C2. For maxTokens at least 2, the token count returned by
`InferTokens` lies in [0, min(maxTokens, MAX_SEQUENCE_LENGTH)] (the lower
bound is trivial for a list length). The bound fails for maxTokens = 0 and
1 because the loop appends one token before the first limit check. -/
theorem inferTokens_length_le_min (env : InferEnv) (initialized : Bool)
    (table : Int → ℚ) (st : EngineSt) (image : Nat → ℚ) (max_tokens : Int)
    (hmt : 2 ≤ max_tokens) :
    ((inferTokens env initialized table st image max_tokens).1.length : Int) ≤
      min max_tokens (MAX_SEQUENCE_LENGTH : Int) := by
  unfold inferTokens
  split_ifs with h1 h2 h3 h4 h5
  · simp only [List.length_nil, Int.natCast_zero]
    rw [le_min_iff]
    constructor
    · omega
    · decide
  · simp only [List.length_nil, Int.natCast_zero]
    rw [le_min_iff]
    constructor
    · omega
    · decide
  · simp only [List.length_nil, Int.natCast_zero]
    rw [le_min_iff]
    constructor
    · omega
    · decide
  · simp only [List.length_nil, Int.natCast_zero]
    rw [le_min_iff]
    constructor
    · omega
    · decide
  · simp only [List.length_nil, Int.natCast_zero]
    rw [le_min_iff]
    constructor
    · omega
    · decide
  · have hb := decodeLoop_length_le env table (env.encRun image) max_tokens
      (MAX_SEQUENCE_LENGTH - 1) 0 (initDecState table)
      (by rw [initDecState_length]; omega)
      (by rw [initDecState_length]; decide)
    rw [le_min_iff]
    refine ⟨hb.1, ?_⟩
    exact_mod_cast hb.2

theorem inferTokens_length_le_min_witness :
    ((inferTokens envAllOk true zeroTable zeroEngineSt zeroImage 5).1.length : Int) ≤
      min (5 : Int) (MAX_SEQUENCE_LENGTH : Int) :=
  inferTokens_length_le_min envAllOk true zeroTable zeroEngineSt zeroImage 5 (by decide)

/-- C2 counterexample. With maxTokens = 0 in the all-success zero-logits
scenario, `InferTokens` returns 2 tokens, exceeding
min(0, MAX_SEQUENCE_LENGTH) = 0: the loop writes one generated token (and
the initial START) before its first limit check. -/
theorem inferTokens_maxTokens_zero_exceeds :
    ¬ (((inferTokens envAllOk true zeroTable zeroEngineSt zeroImage 0).1.length : Int) ≤
      min (0 : Int) (MAX_SEQUENCE_LENGTH : Int)) := by
  have h : (inferTokens envAllOk true zeroTable zeroEngineSt zeroImage 0).1.length = 2 := by
    rw [inferTokens_run envAllOk zeroTable zeroEngineSt zeroImage 0 rfl rfl rfl rfl]
    have h299 : MAX_SEQUENCE_LENGTH - 1 = 298 + 1 := by decide
    rw [h299]
    rw [decodeLoop_length_first_limit envAllOk zeroTable (envAllOk.encRun zeroImage) 0 0 298
      (initDecState zeroTable) ⟨rfl, rfl, rfl, rfl⟩ envAllOk_noEnd
      (by rw [initDecState_length]; decide)]
    rw [initDecState_length]
  rw [h]
  decide

/-- C3. If every decoder-step operation succeeds for steps 0-4 (appending
one non-END token each) and some buffer write/run/read fails at decode
step 5, `InferTokens` stops the loop and still returns the tokens produced
so far: the initial START plus the 5 generated tokens, i.e. 6 tokens (not
5 as the claim stated), and in particular not 0 and not an exception. -/
theorem inferTokens_fail_at_step5_length (env : InferEnv) (table : Int → ℚ)
    (st : EngineSt) (image : Nat → ℚ) (max_tokens : Int)
    (hW : env.encWriteOk = true) (hR : env.encRunOk = true)
    (hRd : env.encReadOk = true) (hH : env.hiddenWriteOk = true)
    (hok5 : ∀ i, i < 5 → stepOk env i) (hfail : ¬ stepOk env 5)
    (hend : noEndSelected env (env.encRun image)) (hmt : 7 ≤ max_tokens) :
    (inferTokens env true table st image max_tokens).1.length = 6 := by
  rw [inferTokens_run env table st image max_tokens hW hR hRd hH]
  rw [decodeLoop_length_fail_at env table (env.encRun image) max_tokens hend 5
    (MAX_SEQUENCE_LENGTH - 1) 0 (initDecState table)
    (fun i hi => by simpa using hok5 i hi)
    (by simpa using hfail)
    (by decide)
    (by rw [initDecState_length]; omega)
    (by rw [initDecState_length]; decide)]
  rw [initDecState_length]

theorem inferTokens_fail_at_step5_length_witness :
    (inferTokens envFailAt5 true zeroTable zeroEngineSt zeroImage 300).1.length = 6 :=
  inferTokens_fail_at_step5_length envFailAt5 zeroTable zeroEngineSt zeroImage 300
    rfl rfl rfl rfl (by decide) (by decide) envFailAt5_noEnd (by decide)

/-- C3 counterexample. In the concrete scenario where the decoder run
fails from step 5 onwards (steps 0-4 succeed, zero logits), the returned
sequence length is not 5 (it is 6 = START + 5 generated tokens). -/
theorem inferTokens_fail_at_step5_not_5 :
    ¬ (inferTokens envFailAt5 true zeroTable zeroEngineSt zeroImage 300).1.length = 5 := by
  have h : (inferTokens envFailAt5 true zeroTable zeroEngineSt zeroImage 300).1.length = 6 := by
    rw [inferTokens_run envFailAt5 zeroTable zeroEngineSt zeroImage 300 rfl rfl rfl rfl]
    rw [decodeLoop_length_fail_at envFailAt5 zeroTable (envFailAt5.encRun zeroImage) 300
      envFailAt5_noEnd 5 (MAX_SEQUENCE_LENGTH - 1) 0 (initDecState zeroTable)
      (fun i hi => by
        have := (by decide : ∀ j, j < 5 → stepOk envFailAt5 j) i hi
        simpa using this)
      (by simpa using (by decide : ¬ stepOk envFailAt5 5))
      (by decide)
      (by rw [initDecState_length]; decide)
      (by rw [initDecState_length]; decide)]
    rw [initDecState_length]
  omega

/-- C4. For a fixed environment (compiled models as pure functions and a
fixed schedule of backend outcomes), a fixed embedding table, a fixed
image and a fixed maxTokens, `InferTokens` returns the same token sequence
regardless of the engine working memory left behind by earlier calls: the
per-call decoding state is reset at the start of every call, so repeated
calls yield identical token sequences (of identical length). -/
theorem inferTokens_deterministic (env : InferEnv) (initialized : Bool)
    (table : Int → ℚ) (st st' : EngineSt) (image : Nat → ℚ) (max_tokens : Int) :
    (inferTokens env initialized table st image max_tokens).1 =
      (inferTokens env initialized table st' image max_tokens).1 := by
  unfold inferTokens
  split_ifs <;> rfl

/-- C10. `FindMaxLogitToken` always returns a token id in
[0, VOCAB_SIZE): the maximum is initialised from vocabulary index 0 and
only ever replaced by a larger vocabulary index. Consequently the decode
loop never stops through its `next_token < 0` invalid-selection branch. -/
theorem findMax_in_vocab_and_invalid_unreachable :
    (∀ (logits : Nat → ℚ) (seq_len : Nat),
        0 ≤ findMaxLogitToken logits seq_len ∧
          findMaxLogitToken logits seq_len < (VOCAB_SIZE : Int)) ∧
      (∀ (env : InferEnv) (table : Int → ℚ) (hidden : Nat → ℚ) (max_tokens : Int)
          (step fuel : Nat) (s : DecState),
          (decodeLoop env table hidden max_tokens step fuel s).2 ≠
            StopReason.invalidToken) :=
  ⟨fun logits seq_len =>
      ⟨findMaxLogitToken_nonneg logits seq_len, findMaxLogitToken_lt_vocab logits seq_len⟩,
    fun env table hidden max_tokens step fuel s =>
      decodeLoop_never_invalid env table hidden max_tokens fuel step s⟩

/-! ### GetOptimalThreadCount (ocr_inference.cpp, lines 60-64) -/

/-- GetOptimalThreadCount: fall back to 2 when hardware concurrency
detection fails (`hw_threads == 0`), otherwise `min(hw_threads, 4)`. -/
def getOptimalThreadCount (hw_threads : Nat) : Int :=
  if hw_threads = 0 then 2 else ((min hw_threads 4 : Nat) : Int)

/-! ### Engine lifecycle model (Initialize / Close, backend compilation)

A `World` holds the process-wide state outside any one engine instance:
the shared LiteRT environment `g_persist_env` (ocr_inference.cpp, lines
29-32) plus an injected counter of successful environment creations. An
`Engine` holds the per-instance resource flags: the LiteRT object bundle
`litert_`, compiled models, tensor buffers, the owned `AAsset` handles,
and the per-model backend flags. Compilation, buffer creation and warmup
outcomes are injected through `InitConfig`. -/

structure World where
  envExists : Bool
  envCreations : Nat
deriving DecidableEq

structure Engine where
  initialized : Bool
  litertPresent : Bool
  cpuEnvPresent : Bool
  encoderModel : Bool
  decoderModel : Bool
  buffers : Bool
  workMemory : Bool
  encAsset : Bool
  decAsset : Bool
  embAsset : Bool
  encoderUsingGpu : Bool
  decoderUsingGpu : Bool
  usingGpu : Bool
deriving DecidableEq

/-- A freshly constructed engine: everything absent (ocr_inference.h
default member initialisers). -/
def Engine.fresh : Engine :=
  { initialized := false
    litertPresent := false
    cpuEnvPresent := false
    encoderModel := false
    decoderModel := false
    buffers := false
    workMemory := false
    encAsset := false
    decAsset := false
    embAsset := false
    encoderUsingGpu := false
    decoderUsingGpu := false
    usingGpu := false }

/-- Outcomes of the GPU compilation attempt (ocr_inference.cpp, lines
355-449): option-object creation, setting the accelerator, the two
compilations, and the two `IsFullyAccelerated` queries (`none` models a
failed query, which the C++ ignores). -/
structure GpuAttempt where
  encOptionsOk : Bool
  encSetHwOk : Bool
  decOptionsOk : Bool
  encCompileOk : Bool
  encFullyAccel : Option Bool
  decCompileOk : Bool
  decFullyAccel : Option Bool
deriving DecidableEq

/-- Outcomes of the CPU compilation attempt (ocr_inference.cpp, lines
451-545). -/
structure CpuAttempt where
  envCreateOk : Bool
  encOptionsOk : Bool
  encSetHwOk : Bool
  decOptionsOk : Bool
  decSetHwOk : Bool
  encCompileOk : Bool
  decCompileOk : Bool
deriving DecidableEq

/-- Injected outcomes for one `Initialize` call: shared environment
creation, the OpenCL library probe, both compilation attempts, buffer
creation and warmup. -/
structure InitConfig where
  envCreateOk : Bool
  openclAvailable : Bool
  gpu : GpuAttempt
  cpu : CpuAttempt
  buffersOk : Bool
  warmupOk : Bool
deriving DecidableEq

/-- TryCompileWithGpu (ocr_inference.cpp, lines 355-449): checks run in
source order — encoder options creation, `SetHardwareAccelerators`,
decoder options creation, encoder compile result, encoder
`IsFullyAccelerated` (rejected only when the query succeeds and answers
false), decoder compile result, decoder `IsFullyAccelerated`. Only on
full success are the compiled models installed and both per-model GPU
flags (and `using_gpu`) set. -/
def tryCompileWithGpu (g : GpuAttempt) (e : Engine) : Engine × Bool :=
  if g.encOptionsOk = false then (e, false)
  else if g.encSetHwOk = false then (e, false)
  else if g.decOptionsOk = false then (e, false)
  else if g.encCompileOk = false then (e, false)
  else if g.encFullyAccel = some false then (e, false)
  else if g.decCompileOk = false then (e, false)
  else if g.decFullyAccel = some false then (e, false)
  else
    ({ e with
        encoderModel := true
        decoderModel := true
        encoderUsingGpu := true
        decoderUsingGpu := true
        usingGpu := true }, true)

/-- TryCompileWithCpu (ocr_inference.cpp, lines 451-545): creates the
dedicated CPU environment if absent, then creates options, sets the CPU
accelerator for both models, compiles both, and on success installs the
models with all GPU flags false. -/
def tryCompileWithCpu (c : CpuAttempt) (e : Engine) : Engine × Bool :=
  if e.cpuEnvPresent = false ∧ c.envCreateOk = false then (e, false)
  else
    let e1 : Engine := { e with cpuEnvPresent := true }
    if c.encOptionsOk = false then (e1, false)
    else if c.encSetHwOk = false then (e1, false)
    else if c.decOptionsOk = false then (e1, false)
    else if c.decSetHwOk = false then (e1, false)
    else if c.encCompileOk = false then (e1, false)
    else if c.decCompileOk = false then (e1, false)
    else
      ({ e1 with
          encoderModel := true
          decoderModel := true
          encoderUsingGpu := false
          decoderUsingGpu := false
          usingGpu := false }, true)

/-- Tail of `Initialize` after a successful compilation (ocr_inference.cpp,
lines 184-206): recompute `using_gpu` from the per-model flags, create
buffers, run warmup, allocate the working arrays, set `initialized_`. -/
def finishInit (cfg : InitConfig) (w : World) (e : Engine) : World × Engine × Bool :=
  let e1 : Engine := { e with usingGpu := e.encoderUsingGpu && e.decoderUsingGpu }
  if cfg.buffersOk = false then (w, e1, false)
  else if cfg.warmupOk = false then (w, { e1 with buffers := true }, false)
  else (w, { e1 with buffers := true, workMemory := true, initialized := true }, true)

/-- Assignments made by `Initialize` before any fallible stage
(ocr_inference.cpp, lines 108-125): take ownership of the three assets
and allocate the LiteRT object bundle. -/
def withAssets (e : Engine) : Engine :=
  { e with
      encAsset := true
      decAsset := true
      embAsset := true
      litertPresent := true }

/-- Backend selection of `Initialize` (ocr_inference.cpp, lines 150-182):
when the OpenCL probe succeeds, attempt GPU compilation and on its failure
fall back to CPU compilation; without OpenCL go straight to CPU. -/
def compileStage (cfg : InitConfig) (e : Engine) : Engine × Bool :=
  if cfg.openclAvailable = true then
    match tryCompileWithGpu cfg.gpu e with
    | (e2, true) => (e2, true)
    | (e2, false) => tryCompileWithCpu cfg.cpu e2
  else tryCompileWithCpu cfg.cpu e

/-- Initialize (ocr_inference.cpp, lines 93-212): reject when already
initialized; take ownership of the three assets and allocate the LiteRT
object bundle; create the shared environment under the mutex only when it
does not exist yet; run the backend selection; a compilation failure
aborts; finally create buffers and run warmup. The explicit failure
returns do not release any of the already-acquired resources. -/
def initEngine (cfg : InitConfig) (w : World) (e : Engine) : World × Engine × Bool :=
  if e.initialized = true then (w, e, false)
  else if w.envExists = false ∧ cfg.envCreateOk = false then (w, withAssets e, false)
  else
    let w1 : World := if w.envExists = true then w else
      { envExists := true, envCreations := w.envCreations + 1 }
    match compileStage cfg (withAssets e) with
    | (e2, true) => finishInit cfg w1 e2
    | (e2, false) => (w1, e2, false)

/-- Resources released by one `Close` call. -/
inductive Res where
  | tensorBuffers
  | encoderModel
  | decoderModel
  | litertObjects
  | encAsset
  | decAsset
  | embAsset
  | workMemory
deriving DecidableEq

/-- Close (ocr_inference.cpp, lines 721-766): when the LiteRT bundle is
present, clear the buffer vectors, reset both compiled models, and destroy
the bundle (with its CPU environment); close each asset that is still
open; release the working arrays; clear `initialized_`. The shared
`g_persist_env` is deliberately not touched, so the `World` passes through
unchanged. Returns the world, the resulting engine, and the list of
resources actually released. -/
def close (w : World) (e : Engine) : World × Engine × List Res :=
  (w, Engine.fresh,
    (if e.litertPresent = true then
      (if e.buffers = true then [Res.tensorBuffers] else []) ++
      (if e.encoderModel = true then [Res.encoderModel] else []) ++
      (if e.decoderModel = true then [Res.decoderModel] else []) ++
      [Res.litertObjects]
    else []) ++
    (if e.encAsset = true then [Res.encAsset] else []) ++
    (if e.decAsset = true then [Res.decAsset] else []) ++
    (if e.embAsset = true then [Res.embAsset] else []) ++
    (if e.workMemory = true then [Res.workMemory] else []))

/-- IsEncoderUsingGpu (ocr_inference.cpp, lines 547-550). -/
def isEncoderUsingGpu (e : Engine) : Bool :=
  if e.litertPresent = false then false else e.encoderUsingGpu

/-- IsDecoderUsingGpu (ocr_inference.cpp, lines 552-555). -/
def isDecoderUsingGpu (e : Engine) : Bool :=
  if e.litertPresent = false then false else e.decoderUsingGpu

/-! ### Structural lemmas for compilation and initialization -/

theorem tryGpu_preserves (g : GpuAttempt) (e : Engine) :
    (tryCompileWithGpu g e).1.encAsset = e.encAsset ∧
      (tryCompileWithGpu g e).1.decAsset = e.decAsset ∧
      (tryCompileWithGpu g e).1.embAsset = e.embAsset ∧
      (tryCompileWithGpu g e).1.litertPresent = e.litertPresent := by
  simp only [tryCompileWithGpu]
  split_ifs <;> simp

theorem tryCpu_preserves (c : CpuAttempt) (e : Engine) :
    (tryCompileWithCpu c e).1.encAsset = e.encAsset ∧
      (tryCompileWithCpu c e).1.decAsset = e.decAsset ∧
      (tryCompileWithCpu c e).1.embAsset = e.embAsset ∧
      (tryCompileWithCpu c e).1.litertPresent = e.litertPresent := by
  simp only [tryCompileWithCpu]
  split_ifs <;> simp

theorem finishInit_preserves (cfg : InitConfig) (w : World) (e : Engine) :
    (finishInit cfg w e).2.1.encoderUsingGpu = e.encoderUsingGpu ∧
      (finishInit cfg w e).2.1.decoderUsingGpu = e.decoderUsingGpu ∧
      (finishInit cfg w e).2.1.litertPresent = e.litertPresent ∧
      (finishInit cfg w e).2.1.encAsset = e.encAsset ∧
      (finishInit cfg w e).2.1.decAsset = e.decAsset ∧
      (finishInit cfg w e).2.1.embAsset = e.embAsset ∧
      (finishInit cfg w e).2.1.usingGpu = (e.encoderUsingGpu && e.decoderUsingGpu) ∧
      (finishInit cfg w e).1 = w := by
  simp only [finishInit]
  split_ifs <;> simp

/-- A GPU attempt where either model reports itself not fully accelerated
is rejected, whatever engine it starts from. -/
theorem tryGpu_rejects_partial (g : GpuAttempt) (e : Engine)
    (hpart : g.encFullyAccel = some false ∨ g.decFullyAccel = some false) :
    (tryCompileWithGpu g e).2 = false := by
  simp only [tryCompileWithGpu]
  split_ifs with h1 h2 h3 h4 h5 h6 h7
  any_goals rfl
  rcases hpart with hx | hx
  · exact absurd hx h5
  · exact absurd hx h7

/-- A successful CPU compilation leaves both per-model GPU flags false. -/
theorem tryCpu_success_flags (c : CpuAttempt) (e : Engine) :
    (tryCompileWithCpu c e).2 = true →
      (tryCompileWithCpu c e).1.encoderUsingGpu = false ∧
        (tryCompileWithCpu c e).1.decoderUsingGpu = false := by
  simp only [tryCompileWithCpu]
  split_ifs <;> intro h <;> simp_all

theorem close_world (w : World) (e : Engine) : (close w e).1 = w := rfl

theorem close_engine (w : World) (e : Engine) : (close w e).2.1 = Engine.fresh := rfl

/-- Backend selection preserves asset ownership and the LiteRT bundle. -/
theorem compileStage_preserves (cfg : InitConfig) (e : Engine) :
    (compileStage cfg e).1.encAsset = e.encAsset ∧
      (compileStage cfg e).1.decAsset = e.decAsset ∧
      (compileStage cfg e).1.embAsset = e.embAsset ∧
      (compileStage cfg e).1.litertPresent = e.litertPresent := by
  simp only [compileStage]
  split_ifs
  · rcases hg : tryCompileWithGpu cfg.gpu e with ⟨e2, bg⟩
    cases bg
    · have h2 := tryGpu_preserves cfg.gpu e
      have h3 := tryCpu_preserves cfg.cpu e2
      rw [hg] at h2
      simp only [hg]
      exact ⟨h3.1.trans h2.1, (h3.2.1.trans h2.2.1),
        (h3.2.2.1.trans h2.2.2.1), (h3.2.2.2.trans h2.2.2.2)⟩
    · have h2 := tryGpu_preserves cfg.gpu e
      rw [hg] at h2
      simp only [hg]
      exact h2
  · exact tryCpu_preserves cfg.cpu e

/-- If the GPU attempt is rejected, a successful backend selection must
have come from the CPU path, therefore both per-model GPU flags are
false. -/
theorem compileStage_flags_of_gpu_reject (cfg : InitConfig) (e : Engine)
    (hrej : (tryCompileWithGpu cfg.gpu e).2 = false) :
    (compileStage cfg e).2 = true →
      (compileStage cfg e).1.encoderUsingGpu = false ∧
        (compileStage cfg e).1.decoderUsingGpu = false := by
  simp only [compileStage]
  split_ifs
  · rcases hg : tryCompileWithGpu cfg.gpu e with ⟨e2, bg⟩
    cases bg
    · simp only [hg]
      exact tryCpu_success_flags cfg.cpu e2
    · rw [hg] at hrej
      simp at hrej
  · exact tryCpu_success_flags cfg.cpu e

/-- The world returned by `Initialize`: the shared environment is created
(and the creation counter bumped) exactly when it did not exist and its
creation succeeds; in every other case the world passes through. -/
theorem initEngine_world (cfg : InitConfig) (w : World) (e : Engine) :
    (initEngine cfg w e).1 =
      if e.initialized = true then w
      else if w.envExists = true then w
      else if cfg.envCreateOk = true then
        { envExists := true, envCreations := w.envCreations + 1 }
      else w := by
  rcases hcs : compileStage cfg (withAssets e) with ⟨e2, b⟩
  by_cases hI : e.initialized = true
  · simp [initEngine, hI]
  · by_cases hw : w.envExists = true
    · have hEnv : ¬ (w.envExists = false ∧ cfg.envCreateOk = false) := by simp [hw]
      simp only [initEngine, if_neg hI, if_neg hEnv, if_pos hw, hcs]
      cases b
      · simp [hI, hw]
      · simp [hI, hw, (finishInit_preserves cfg w e2).2.2.2.2.2.2.2]
    · by_cases hC : cfg.envCreateOk = true
      · have hEnv : ¬ (w.envExists = false ∧ cfg.envCreateOk = false) := by simp [hC]
        simp only [initEngine, if_neg hI, if_neg hEnv, if_neg hw, hcs]
        cases b
        · simp [hI, hw, hC]
        · simp [hI, hw, hC,
            (finishInit_preserves cfg
              { envExists := true, envCreations := w.envCreations + 1 } e2).2.2.2.2.2.2.2]
      · have hEnv : w.envExists = false ∧ cfg.envCreateOk = false :=
          ⟨by simpa using hw, by simpa using hC⟩
        simp [initEngine, hI, hEnv, hw, hC]

theorem isEncoderUsingGpu_of_flag_false (e : Engine) (h : e.encoderUsingGpu = false) :
    isEncoderUsingGpu e = false := by
  unfold isEncoderUsingGpu
  split_ifs <;> simp [h]

theorem isDecoderUsingGpu_of_flag_false (e : Engine) (h : e.decoderUsingGpu = false) :
    isDecoderUsingGpu e = false := by
  unfold isDecoderUsingGpu
  split_ifs <;> simp [h]

/-- After `Initialize` from a fresh engine, the three assets and the
LiteRT bundle are held, whatever the outcome. -/
theorem initEngine_fresh_assets (cfg : InitConfig) (w : World) :
    (initEngine cfg w Engine.fresh).2.1.encAsset = true ∧
      (initEngine cfg w Engine.fresh).2.1.decAsset = true ∧
      (initEngine cfg w Engine.fresh).2.1.embAsset = true ∧
      (initEngine cfg w Engine.fresh).2.1.litertPresent = true := by
  rcases hcs : compileStage cfg (withAssets Engine.fresh) with ⟨e2, b⟩
  have hp := compileStage_preserves cfg (withAssets Engine.fresh)
  rw [hcs] at hp
  by_cases hEnv : w.envExists = false ∧ cfg.envCreateOk = false
  · simp only [initEngine, if_neg (show ¬ Engine.fresh.initialized = true by decide),
      if_pos hEnv]
    exact ⟨rfl, rfl, rfl, rfl⟩
  · simp only [initEngine, if_neg (show ¬ Engine.fresh.initialized = true by decide),
      if_neg hEnv, hcs]
    cases b
    · simpa using hp
    · refine ⟨?_, ?_, ?_, ?_⟩
      · rw [(finishInit_preserves cfg _ e2).2.2.2.1]
        simpa using hp.1
      · rw [(finishInit_preserves cfg _ e2).2.2.2.2.1]
        simpa using hp.2.1
      · rw [(finishInit_preserves cfg _ e2).2.2.2.2.2.1]
        simpa using hp.2.2.1
      · rw [(finishInit_preserves cfg _ e2).2.2.1]
        simpa using hp.2.2.2

/-- A successful `Initialize` whose GPU attempt is rejected must have
compiled on the CPU path, so all GPU flags of the resulting engine are
false. -/
theorem initEngine_success_flags_of_gpu_reject (cfg : InitConfig) (w : World) (e : Engine)
    (hrej : ∀ e' : Engine, (tryCompileWithGpu cfg.gpu e').2 = false)
    (hsucc : (initEngine cfg w e).2.2 = true) :
    (initEngine cfg w e).2.1.encoderUsingGpu = false ∧
      (initEngine cfg w e).2.1.decoderUsingGpu = false ∧
      (initEngine cfg w e).2.1.usingGpu = false := by
  rcases hcs : compileStage cfg (withAssets e) with ⟨e2, b⟩
  by_cases hI : e.initialized = true
  · simp [initEngine, hI] at hsucc
  · by_cases hEnv : w.envExists = false ∧ cfg.envCreateOk = false
    · simp [initEngine, hI, hEnv] at hsucc
    · have hflags := compileStage_flags_of_gpu_reject cfg (withAssets e) (hrej _)
      rw [hcs] at hflags
      simp only [initEngine, if_neg hI, if_neg hEnv, hcs] at hsucc ⊢
      cases b
      · simp at hsucc
      · have hfl := hflags rfl
        refine ⟨?_, ?_, ?_⟩
        · rw [(finishInit_preserves cfg _ e2).1]
          exact hfl.1
        · rw [(finishInit_preserves cfg _ e2).2.1]
          exact hfl.2
        · rw [(finishInit_preserves cfg _ e2).2.2.2.2.2.2.1, hfl.1]
          simp

/-! ### Concrete lifecycle scenarios -/

def worldNoEnv : World :=
  { envExists := false
    envCreations := 0 }

def gpuAllOk : GpuAttempt :=
  { encOptionsOk := true
    encSetHwOk := true
    decOptionsOk := true
    encCompileOk := true
    encFullyAccel := some true
    decCompileOk := true
    decFullyAccel := some true }

/-- GPU attempt in which the decoder reports partial acceleration. -/
def gpuDecPartial : GpuAttempt :=
  { gpuAllOk with decFullyAccel := some false }

def cpuAllOk : CpuAttempt :=
  { envCreateOk := true
    encOptionsOk := true
    encSetHwOk := true
    decOptionsOk := true
    decSetHwOk := true
    encCompileOk := true
    decCompileOk := true }

def cfgGpuPartial : InitConfig :=
  { envCreateOk := true
    openclAvailable := true
    gpu := gpuDecPartial
    cpu := cpuAllOk
    buffersOk := true
    warmupOk := true }

def cfgCpuOk : InitConfig :=
  { envCreateOk := true
    openclAvailable := false
    gpu := gpuAllOk
    cpu := cpuAllOk
    buffersOk := true
    warmupOk := true }

def cfgWarmupFail : InitConfig :=
  { cfgCpuOk with warmupOk := false }

/-! ### Lifecycle claims -/

/-- C5. If during GPU compilation either model reports itself not fully
hardware-accelerated, the GPU attempt is rejected as a whole (it returns
failure from every starting state), and any engine whose `Initialize`
nevertheless succeeds took the CPU fallback: it reports
`IsEncoderUsingGpu() == false`, `IsDecoderUsingGpu() == false` and
`using_gpu == false` — no mixed-backend state is ever exposed. -/
theorem gpu_partial_no_mixed_backend (cfg : InitConfig) (w : World)
    (hpart : cfg.gpu.encFullyAccel = some false ∨ cfg.gpu.decFullyAccel = some false) :
    (∀ e : Engine, (tryCompileWithGpu cfg.gpu e).2 = false) ∧
      ((initEngine cfg w Engine.fresh).2.2 = true →
        isEncoderUsingGpu (initEngine cfg w Engine.fresh).2.1 = false ∧
          isDecoderUsingGpu (initEngine cfg w Engine.fresh).2.1 = false ∧
          (initEngine cfg w Engine.fresh).2.1.usingGpu = false) := by
  have hrej : ∀ e' : Engine, (tryCompileWithGpu cfg.gpu e').2 = false :=
    fun e' => tryGpu_rejects_partial cfg.gpu e' hpart
  refine ⟨hrej, fun hsucc => ?_⟩
  have h := initEngine_success_flags_of_gpu_reject cfg w Engine.fresh hrej hsucc
  exact ⟨isEncoderUsingGpu_of_flag_false _ h.1,
    isDecoderUsingGpu_of_flag_false _ h.2.1, h.2.2⟩

theorem gpu_partial_no_mixed_backend_witness :
    (tryCompileWithGpu cfgGpuPartial.gpu Engine.fresh).2 = false ∧
      (isEncoderUsingGpu (initEngine cfgGpuPartial worldNoEnv Engine.fresh).2.1 = false ∧
        isDecoderUsingGpu (initEngine cfgGpuPartial worldNoEnv Engine.fresh).2.1 = false ∧
        (initEngine cfgGpuPartial worldNoEnv Engine.fresh).2.1.usingGpu = false) :=
  ⟨(gpu_partial_no_mixed_backend cfgGpuPartial worldNoEnv (Or.inr rfl)).1 Engine.fresh,
    (gpu_partial_no_mixed_backend cfgGpuPartial worldNoEnv (Or.inr rfl)).2 (by decide)⟩

/-- C6. `GetOptimalThreadCount` returns 2 when hardware concurrency
detection fails (0), and `min(hardware_concurrency, 4)` otherwise; the
result is at least 2 for every `hardware_concurrency` other than 1, but on
a single-core device (1) it is 1, not the claimed minimum of 2. -/
theorem getOptimalThreadCount_characterization (hw_threads : Nat) :
    (hw_threads = 0 → getOptimalThreadCount hw_threads = 2) ∧
      (1 ≤ hw_threads →
        getOptimalThreadCount hw_threads = ((min hw_threads 4 : Nat) : Int)) ∧
      (hw_threads ≠ 1 → 2 ≤ getOptimalThreadCount hw_threads) := by
  refine ⟨fun h => by simp [getOptimalThreadCount, h], fun h => ?_, fun h => ?_⟩
  · rw [getOptimalThreadCount, if_neg (by omega)]
  · rw [getOptimalThreadCount]
    split_ifs with h0
    · norm_num
    · have h2 : 2 ≤ min hw_threads 4 := by omega
      exact_mod_cast h2

theorem getOptimalThreadCount_characterization_witness :
    getOptimalThreadCount 8 = ((min 8 4 : Nat) : Int) ∧
      2 ≤ getOptimalThreadCount 8 :=
  ⟨(getOptimalThreadCount_characterization 8).2.1 (by decide),
    (getOptimalThreadCount_characterization 8).2.2 (by decide)⟩

/-- C6 counterexample. With hardware concurrency 1 (single-core device),
the thread count is min(1, 4) = 1, which is less than 2: the claimed lower
bound of 2 does not hold for every hardware concurrency. -/
theorem getOptimalThreadCount_one_below_two :
    getOptimalThreadCount 1 = 1 ∧ ¬ 2 ≤ getOptimalThreadCount 1 := by decide

/-- C7. When `Initialize` fails through one of its explicit failure
returns (environment creation, compilation, buffer creation, warmup), the
partially acquired resources are not released before the call returns: the
asset handles (and on later failures the LiteRT objects) remain held, and
they are only released by a subsequent `Close`, which takes the engine to
the fully released state. -/
theorem initEngine_failure_keeps_resources (cfg : InitConfig) (w : World)
    (hfail : (initEngine cfg w Engine.fresh).2.2 = false) :
    (initEngine cfg w Engine.fresh).2.1.encAsset = true ∧
      (initEngine cfg w Engine.fresh).2.1.decAsset = true ∧
      (initEngine cfg w Engine.fresh).2.1.embAsset = true ∧
      (close (initEngine cfg w Engine.fresh).1 (initEngine cfg w Engine.fresh).2.1).2.1 =
        Engine.fresh := by
  have h := initEngine_fresh_assets cfg w
  exact ⟨h.1, h.2.1, h.2.2.1, close_engine _ _⟩

theorem initEngine_failure_keeps_resources_witness :
    (initEngine cfgWarmupFail worldNoEnv Engine.fresh).2.1.encAsset = true ∧
      (initEngine cfgWarmupFail worldNoEnv Engine.fresh).2.1.decAsset = true ∧
      (initEngine cfgWarmupFail worldNoEnv Engine.fresh).2.1.embAsset = true ∧
      (close (initEngine cfgWarmupFail worldNoEnv Engine.fresh).1
        (initEngine cfgWarmupFail worldNoEnv Engine.fresh).2.1).2.1 = Engine.fresh :=
  initEngine_failure_keeps_resources cfgWarmupFail worldNoEnv (by decide)

/-- C7 counterexample. A warmup failure makes `Initialize` return false
while the engine still holds the asset handles, the compiled models and
the tensor buffers — not the all-released state that `Close` leaves
behind (in which all of these flags are false). -/
theorem initEngine_warmup_failure_not_released :
    (initEngine cfgWarmupFail worldNoEnv Engine.fresh).2.2 = false ∧
      (initEngine cfgWarmupFail worldNoEnv Engine.fresh).2.1.encAsset = true ∧
      (initEngine cfgWarmupFail worldNoEnv Engine.fresh).2.1.encoderModel = true ∧
      (initEngine cfgWarmupFail worldNoEnv Engine.fresh).2.1.buffers = true ∧
      Engine.fresh.encAsset = false ∧ Engine.fresh.encoderModel = false ∧
      Engine.fresh.buffers = false := by decide

/-- One full `Initialize` / `Close` cycle, returning the world and engine
left behind. -/
def initCloseCycle (cfg : InitConfig) (w : World) (e : Engine) : World × Engine :=
  ((close (initEngine cfg w e).1 (initEngine cfg w e).2.1).1,
    (close (initEngine cfg w e).1 (initEngine cfg w e).2.1).2.1)

/-- C8. `Close` never destroys the process-wide shared environment
handle: across two `Initialize` / `Close` cycles starting from a world
without the handle, the handle exists at the end and the injected counter
of environment creations is exactly 1 — the second `Initialize` reuses
the handle created by the first. -/
theorem sharedEnv_created_once (cfg1 cfg2 : InitConfig) (h1 : cfg1.envCreateOk = true) :
    (initCloseCycle cfg2 (initCloseCycle cfg1 worldNoEnv Engine.fresh).1
        (initCloseCycle cfg1 worldNoEnv Engine.fresh).2).1.envExists = true ∧
      (initCloseCycle cfg2 (initCloseCycle cfg1 worldNoEnv Engine.fresh).1
        (initCloseCycle cfg1 worldNoEnv Engine.fresh).2).1.envCreations = 1 := by
  have hw1 : (initEngine cfg1 worldNoEnv Engine.fresh).1 =
      { envExists := true, envCreations := 1 } := by
    rw [initEngine_world, if_neg (by decide), if_neg (by decide), if_pos h1]
    rfl
  simp only [initCloseCycle, close_world, close_engine]
  rw [hw1]
  rw [initEngine_world, if_neg (by decide), if_pos rfl]
  exact ⟨rfl, rfl⟩

theorem sharedEnv_created_once_witness :
    (initCloseCycle cfgCpuOk (initCloseCycle cfgCpuOk worldNoEnv Engine.fresh).1
        (initCloseCycle cfgCpuOk worldNoEnv Engine.fresh).2).1.envExists = true ∧
      (initCloseCycle cfgCpuOk (initCloseCycle cfgCpuOk worldNoEnv Engine.fresh).1
        (initCloseCycle cfgCpuOk worldNoEnv Engine.fresh).2).1.envCreations = 1 :=
  sharedEnv_created_once cfgCpuOk cfgCpuOk rfl

/-- C9. `Close` is idempotent: on a non-initialized fresh engine it
releases no resource and leaves the engine unchanged, and a second
`Close` right after a first one releases no resource and leaves the
(already released) engine state unchanged — no double release. -/
theorem close_idempotent :
    (∀ w : World, close w Engine.fresh = (w, Engine.fresh, [])) ∧
      (∀ (w : World) (e : Engine),
        close (close w e).1 (close w e).2.1 = ((close w e).1, (close w e).2.1, [])) :=
  ⟨fun _ => rfl, fun _ _ => rfl⟩

end Mihon
